import Mathlib

/-!
Verification of dronefly-core's taxon-list filtering, sorting and
pagination engine: a shallow embedding of the relevant source functions
(src/dronefly/core/menus/source.py, src/dronefly/core/menus/taxon_list.py,
src/dronefly/core/formatters/generic.py,
src/dronefly/core/commands/init file) together with theorems settling
the specification's claims about them.

Conventions of the embedding:
- Python ints are Int (Nat where the source value is a count that cannot
  go negative); machine overflow does not arise.
- Python list slicing and indexing, including the negative-index and
  clamping rules, are modelled by pySlice/pyIndex below.
- Python sorted()/list.sort(key=...) is a stable sort by the key order;
  it is modelled by List.insertionSort with the corresponding total
  preorder, which is stable in the same sense.
- A fallible operation (IndexError, ZeroDivisionError) returns Option,
  none standing for the raised exception.
-/

namespace Dronefly

/-- Model of a taxon record as the filtering/sorting/pagination code reads
it (pyinaturalist Taxon/TaxonCount): a name, a rank with its numeric rank
level (levels are scaled by 10 to stay integral; absent level is none),
a direct observation count (TaxonCount.count), an optional rollup
descendant_obs_count, the plain observations_count used when no rollup is
present, and the mutable indent_level the filter pass rewrites. -/
structure Taxon where
  id : Nat
  name : String
  rank : String
  rank_level : Option Nat
  count : Nat
  descendant_obs_count : Option Nat
  observations_count : Nat
  indent_level : Int
  deriving DecidableEq, Repr

/-- Effective bound of a Python slice l[a:b]: a negative bound counts from
the end and is clamped at 0, a nonnegative bound is clamped at the
length. -/
def pySliceBound (len : Nat) (i : Int) : Nat :=
  if i < 0 then ((len : Int) + i).toNat else min i.toNat len

/-- Python list slice l[start:stop] (step 1). -/
def pySlice {α : Type} (l : List α) (start stop : Int) : List α :=
  let s := pySliceBound l.length start
  let e := pySliceBound l.length stop
  (l.drop s).take (e - s)

/-- Python list indexing l[i]: a negative index counts from the end;
an index out of range raises IndexError (modelled as none). -/
def pyIndex {α : Type} (l : List α) (i : Int) : Option α :=
  let j := if i < 0 then (l.length : Int) + i else i
  if 0 ≤ j then l.get? j.toNat else none

/-- Result of ListPageSource.get_page: a single element when per_page is
1, otherwise a slice of the entries. -/
inductive PageData (α : Type) where
  | single (a : α)
  | slice (l : List α)
  deriving DecidableEq, Repr

namespace ListPageSource

/-- Model of ListPageSource.init computing self.max_pages from
divmod(len(entries), per_page): the page count, rounded up. per_page = 0
raises ZeroDivisionError (none). Negative page sizes are not modelled:
no caller constructs one. -/
def get_max_pages {α : Type} (entries : List α) (per_page : Nat) : Option Nat :=
  if per_page = 0 then none
  else
    let pages := entries.length / per_page
    let left_over := entries.length % per_page
    some (if left_over ≠ 0 then pages + 1 else pages)

/-- Model of ListPageSource.is_paginating: len(self.entries) > self.per_page. -/
def is_paginating {α : Type} (entries : List α) (per_page : Nat) : Bool :=
  entries.length > per_page

/-- Model of ListPageSource.get_page: entries[page_number] when per_page
is 1, else the slice entries[base : base + per_page] with
base = page_number * per_page. -/
def get_page {α : Type} (entries : List α) (per_page : Nat) (page_number : Int) :
    Option (PageData α) :=
  if per_page = 1 then (pyIndex entries page_number).map PageData.single
  else
    let base := page_number * (per_page : Int)
    some (PageData.slice (pySlice entries base (base + (per_page : Int))))

end ListPageSource

namespace TaxonListSource

/-- Model of TaxonListSource.is_paginating, which overrides the inherited
method and returns True unconditionally (menus/taxon_list.py line 345). -/
def is_paginating (entries : List Taxon) (per_page : Nat) : Bool :=
  let _ := entries
  let _ := per_page
  true

end TaxonListSource

namespace LifeListFormatter

/-- Model of the per_page clamp in LifeListFormatter.init:
self.per_page = per_page if per_page >= 0 else 0. -/
def init_per_page (per_page : Int) : Int :=
  if per_page ≥ 0 then per_page else 0

/-- Model of LifeListFormatter.get_page_of_taxa: when per_page > 0, the
slice taxa[page * per_page : page * per_page + per_page]; otherwise
taxa[0 : len(taxa) + 1], the whole list. -/
def get_page_of_taxa (per_page : Int) (taxa : List Taxon) (page : Int) : List Taxon :=
  if per_page > 0 then
    let page_start := page * per_page
    pySlice taxa page_start (page_start + per_page)
  else
    pySlice taxa 0 ((taxa.length : Int) + 1)

/-- Model of LifeListFormatter.last_page: 0 unless with_taxa, per_page > 0
and taxa is non-empty, else ceil(len(taxa) / per_page) - 1. Python's
math.ceil over float division is modelled as exact integer ceiling
division. -/
def last_page (with_taxa : Bool) (per_page : Int) (taxa : List Taxon) : Int :=
  if with_taxa = true ∧ per_page > 0 ∧ taxa ≠ [] then
    ((taxa.length : Int) + per_page - 1) / per_page - 1
  else 0

end LifeListFormatter

/-- Modelled from the spec: the Rank Index component, "static lookup tables
mapping rank names to ordinal rank levels" (spec section 2). The repository
imports these tables (COMMON_RANKS) from the upstream pyinaturalist
constants, which are not under src/. Order matters: the list runs from the
finest main rank to the coarsest, as the prefix-truncation in
filter_taxon_list relies on. -/
def COMMON_RANKS : List String :=
  ["species", "genus", "family", "order", "class", "phylum", "kingdom"]

/-- Modelled from the spec: the Rank Index table RANK_LEVELS mapping every
rank name to its numeric level, "coarser ranks have higher levels" (spec
glossary); imported by the repository from the upstream pyinaturalist
constants, which are not under src/. Levels are the iNaturalist rank
levels scaled by 10 so that the half-step ranks stay integral. The list
is ordered finest to coarsest, as the source relies on for dict key
order. -/
def RANK_LEVELS : List (String × Nat) :=
  [("form", 50), ("infrahybrid", 50), ("variety", 50), ("subspecies", 50),
   ("hybrid", 100), ("species", 100), ("complex", 110), ("subsection", 120),
   ("section", 130), ("subgenus", 150), ("genushybrid", 200), ("genus", 200),
   ("subtribe", 240), ("tribe", 250), ("supertribe", 260), ("subfamily", 270),
   ("family", 300), ("epifamily", 320), ("superfamily", 330),
   ("zoosubsection", 335), ("zoosection", 340), ("parvorder", 345),
   ("infraorder", 350), ("suborder", 370), ("order", 400), ("superorder", 430),
   ("subterclass", 440), ("infraclass", 450), ("subclass", 470),
   ("class", 500), ("superclass", 530), ("subphylum", 570), ("phylum", 600),
   ("subkingdom", 670), ("kingdom", 700), ("stateofmatter", 1000)]

/-- Lookup RANK_LEVELS[r]; the source indexes the dict directly and only
does so for rank names known to the table, so the default 0 is never
exercised by the claims. -/
def rankLevelOf (r : String) : Nat :=
  (RANK_LEVELS.lookup r).getD 0

/-- Model of included_ranks (formatters/generic.py lines 183-188):
COMMON_RANKS for "main", every rank of RANK_LEVELS otherwise. -/
def included_ranks (per_rank : String) : List String :=
  if per_rank = "main" then COMMON_RANKS else RANK_LEVELS.map Prod.fst

/-- Model of the ranks_to_count computation of filter_taxon_list
(menus/taxon_list.py lines 165-175) and of filter_life_list
(formatters/generic.py lines 196-206) for per_rank "main"/"any": when a
reference taxon rank is given and is not a main rank, keep the ranks
whose level is strictly below the reference rank level and append the
reference rank itself; otherwise truncate the rank list just after the
reference rank. -/
def main_any_ranks_to_count (per_rank : String) (taxon_rank : Option String) :
    List String :=
  let ranks_to_count := included_ranks per_rank
  match taxon_rank with
  | none => ranks_to_count
  | some r =>
    if per_rank = "main" ∧ r ∉ ranks_to_count then
      (ranks_to_count.filter (fun m => decide (rankLevelOf m < rankLevelOf r))) ++ [r]
    else
      ranks_to_count.take (ranks_to_count.indexOf r + 1)

/-! Sorting. _sort_rank_name(order) in menus/taxon_list.py produces the
Python sort key ((taxon.rank_level or 0) * -1, name_key) where name_key
is taxon.name for ascending order and the cmp_to_key-inverted name for
"desc". Sorting by that key under CPython's stable sort is the same as a
stable sort by the total preorder below. -/

/-- Python's (taxon.rank_level or 0): None and 0 both give 0. -/
def levOf (t : Taxon) : Nat :=
  t.rank_level.getD 0

/-- First component of the _sort_rank_name key: (rank_level or 0) * -1. -/
def levKey (t : Taxon) : Int :=
  -(levOf t : Int)

/-- Name component of the _sort_rank_name key as a preorder: for "desc"
the cmp_to_key comparator (a < b) - (a > b) inverts the string order, so
a precedes b exactly when b.name <= a.name; otherwise plain a.name <=
b.name. -/
def nameLe (order : String) (a b : Taxon) : Prop :=
  if order = "desc" then b.name ≤ a.name else a.name ≤ b.name

instance (order : String) (a b : Taxon) : Decidable (nameLe order a b) :=
  inferInstanceAs (Decidable (if order = "desc" then b.name ≤ a.name else a.name ≤ b.name))

/-- Total preorder corresponding to the _sort_rank_name(order) key:
lexicographic on (levKey, name in the requested order). -/
def rank_name_le (order : String) (a b : Taxon) : Prop :=
  levKey a < levKey b ∨ (levKey a = levKey b ∧ nameLe order a b)

instance (order : String) : DecidableRel (rank_name_le order) := fun a b =>
  inferInstanceAs (Decidable (levKey a < levKey b ∨ (levKey a = levKey b ∧ nameLe order a b)))

instance (order : String) : IsTotal Taxon (rank_name_le order) := by
  constructor
  intro a b
  unfold rank_name_le nameLe
  rcases lt_trichotomy (levKey a) (levKey b) with h | h | h
  · exact Or.inl (Or.inl h)
  · by_cases hd : order = "desc"
    · simp only [if_pos hd]
      rcases le_total b.name a.name with hn | hn
      · exact Or.inl (Or.inr ⟨h, hn⟩)
      · exact Or.inr (Or.inr ⟨h.symm, hn⟩)
    · simp only [if_neg hd]
      rcases le_total a.name b.name with hn | hn
      · exact Or.inl (Or.inr ⟨h, hn⟩)
      · exact Or.inr (Or.inr ⟨h.symm, hn⟩)
  · exact Or.inr (Or.inl h)

instance (order : String) : IsTrans Taxon (rank_name_le order) := by
  constructor
  intro a b c hab hbc
  unfold rank_name_le nameLe at hab hbc ⊢
  rcases hab with hab | ⟨hab, han⟩
  · rcases hbc with hbc | ⟨hbc, _⟩
    · exact Or.inl (hab.trans hbc)
    · exact Or.inl (hbc ▸ hab)
  · rcases hbc with hbc | ⟨hbc, hbn⟩
    · exact Or.inl (hab ▸ hbc)
    · refine Or.inr ⟨hab.trans hbc, ?_⟩
      by_cases hd : order = "desc"
      · rw [if_pos hd] at han hbn ⊢
        exact le_trans hbn han
      · rw [if_neg hd] at han hbn ⊢
        exact le_trans han hbn

/-- Model of sorted(taxa, key=_sort_rank_name(order)) and of
counted_taxa.sort(key=_sort_rank_name(order)): CPython sorts are stable,
and a stable sort by a total preorder is insertion sort by it. -/
def sort_rank_name (order : String) (taxa : List Taxon) : List Taxon :=
  List.insertionSort (rank_name_le order) taxa

/-- Plain ascending name order, the key lambda t: t.name used by the leaf
sort of filter_life_list (formatters/generic.py line 238). -/
def name_asc_le (a b : Taxon) : Prop :=
  a.name ≤ b.name

instance : DecidableRel name_asc_le := fun a b =>
  inferInstanceAs (Decidable (a.name ≤ b.name))

instance : IsTotal Taxon name_asc_le :=
  ⟨fun a b => le_total a.name b.name⟩

instance : IsTrans Taxon name_asc_le :=
  ⟨fun _ _ _ hab hbc => le_trans hab hbc⟩

/-! Filtering. The tree construction and depth-first traversal
(make_tree/flatten) come from the upstream pyinaturalist library, which is
not part of this repository: the embedding therefore takes the flattened
depth-first traversal as its input sequence, and models the inclusion
filters and the subsequent counting/sorting passes, which are the
repository's own code. -/

/-- Truthiness of getattr(taxon, "descendant_obs_count", None): present
and non-zero. -/
def descendantTruthy : Option Nat → Bool
  | some d => d ≠ 0
  | none => false

/-- Leaf-policy inclusion test of taxa_per_rank in menus/taxon_list.py
(lines 113-126): when the descendant count is present and non-zero, keep
the taxon exactly when its direct count equals it; otherwise the taxon is
kept unconditionally. -/
def leaf_included (t : Taxon) : Bool :=
  match t.descendant_obs_count with
  | some d => if d ≠ 0 then t.count = d else true
  | none => true

/-- Leaf-policy inclusion lambda of taxa_per_rank in
formatters/generic.py (lines 149-152, with root_taxon_id None):
t.count == t.descendant_obs_count, which is False when the attribute is
None. -/
def old_leaf_included (t : Taxon) : Bool :=
  match t.descendant_obs_count with
  | some d => t.count = d
  | none => false

/-- Model of the taxa_per_rank generator of menus/taxon_list.py for
per_rank "leaf", applied to the flattened traversal. -/
def taxa_per_rank_leaf (flattened : List Taxon) : List Taxon :=
  flattened.filter leaf_included

/-- Model of the taxa_per_rank generator of formatters/generic.py for
per_rank "leaf", applied to the flattened traversal. -/
def old_taxa_per_rank_leaf (flattened : List Taxon) : List Taxon :=
  flattened.filter old_leaf_included

/-- Python len(str(n)) for a count. -/
def countDigits (n : Nat) : Nat :=
  (toString n).length

/-- Accumulator of the counting loop of filter_taxon_list
(menus/taxon_list.py lines 214-241): the counted taxa in generator
order, the per-rank tally dict (insertion-ordered association list), the
two column-width maxima, and the root indent level captured from the
first generated taxon. -/
structure CountState where
  counted : List Taxon
  tot : List (String × Nat)
  maxTaxonCountDigits : Nat
  maxDirectCountDigits : Nat
  rootIndentLevel : Option Int
  deriving Repr

/-- Initial accumulator: empty list, empty dict, both digit maxima 1,
no root indent seen. -/
def initCountState : CountState :=
  ⟨[], [], 1, 1, none⟩

/-- Python tot[rank] = tot.get(rank, 0) + 1 on an insertion-ordered dict:
increment the existing entry or append a new one at the end. -/
def tot_bump : List (String × Nat) → String → List (String × Nat)
  | [], r => [(r, 1)]
  | (k, v) :: rest, r =>
    if k = r then (k, v + 1) :: rest else (k, v) :: tot_bump rest r

/-- Indent-level rewrite of the counting loop: every taxon gets
indent_level 0 when per_rank is not "main"/"any" (no_indent); otherwise
indent levels are lowered by the root indent level, the first generated
taxon's own level. -/
def adjustIndent (no_indent : Bool) (root : Option Int) (t : Taxon) : Taxon :=
  if no_indent then { t with indent_level := 0 }
  else
    match root with
    | none => { t with indent_level := 0 }
    | some r => { t with indent_level := t.indent_level - r }

/-- Root indent level after one loop iteration: unchanged when no_indent,
otherwise captured from the first taxon seen. -/
def nextRootIndent (no_indent : Bool) (root : Option Int) (t : Taxon) : Option Int :=
  if no_indent then root
  else
    match root with
    | none => some t.indent_level
    | some r => some r

/-- One iteration of the counting loop of filter_taxon_list: adjust the
indent level, track the digit maxima (descendant and direct counts when a
truthy descendant count exists, observations_count otherwise), append the
taxon and bump its rank tally. -/
def count_step (no_indent : Bool) (st : CountState) (t0 : Taxon) : CountState :=
  let t := adjustIndent no_indent st.rootIndentLevel t0
  { counted := st.counted ++ [t]
    tot := tot_bump st.tot t.rank
    maxTaxonCountDigits :=
      if descendantTruthy t.descendant_obs_count then
        max st.maxTaxonCountDigits (countDigits (t.descendant_obs_count.getD 0))
      else
        max st.maxTaxonCountDigits (countDigits t.observations_count)
    maxDirectCountDigits :=
      if descendantTruthy t.descendant_obs_count then
        max st.maxDirectCountDigits (countDigits t.count)
      else
        st.maxDirectCountDigits
    rootIndentLevel := nextRootIndent no_indent st.rootIndentLevel t0 }

/-- The counting loop of filter_taxon_list over the generated taxa. -/
def count_taxa (no_indent : Bool) (generated : List Taxon) : CountState :=
  generated.foldl (count_step no_indent) initCountState

/-- Value held in the per-rank tally dict for a rank (0 when absent),
Python tot.get(rank, 0). -/
def tot_get : List (String × Nat) → String → Nat
  | [], _ => 0
  | (k, v) :: rest, r => if k = r then v else tot_get rest r

/-- Sum of the per-rank tallies. -/
def tot_sum (tot : List (String × Nat)) : Nat :=
  (tot.map Prod.snd).sum

/-- Model of filter_taxon_list (menus/taxon_list.py) for per_rank "leaf"
with the default name sort: run the leaf generator over the flattened
traversal, run the counting loop (no_indent, since "leaf" is not
"main"/"any"), then sort the counted taxa by _sort_rank_name(order).
The sort_by "obs" variant is not modelled; no claim touches it. -/
def filter_taxon_list_leaf (order : String) (flattened : List Taxon) : List Taxon :=
  sort_rank_name order (count_taxa true (taxa_per_rank_leaf flattened)).counted

/-- Model of filter_life_list (formatters/generic.py) for per_rank
"leaf": the generator already filters, the loop only accumulates digit
and tally metadata without changing the taxa, and the result is sorted by
name ascending (key=lambda t: t.name). -/
def filter_life_list_leaf (flattened : List Taxon) : List Taxon :=
  List.insertionSort name_asc_le (old_taxa_per_rank_leaf flattened)

/-! Navigation commands (commands/init file). The page formatter the
context holds is used by the commands only through last_page() and
get_page_of_taxa(); it is modelled by those two operations. -/

/-- Page formatter as the navigation commands see it. -/
structure PageFormatter where
  lastPage : Int
  pageOfTaxa : Int → List Taxon

/-- Navigation state of a command context: current page and
selected-entry index. -/
structure Context where
  page : Int
  selected : Int
  deriving DecidableEq, Repr

namespace Commands

/-- Model of Commands.next (lines 364-371): advance one page, wrapping
past the formatter's last page back to page 0, and reset the selection. -/
def next (f : PageFormatter) (ctx : Context) : Context :=
  let page := ctx.page + 1
  let page := if page > f.lastPage then 0 else page
  { page := page, selected := 0 }

/-- Model of Commands.prev (lines 399-406): go back one page, wrapping
before page 0 to the formatter's last page, and reset the selection. -/
def prev (f : PageFormatter) (ctx : Context) : Context :=
  let page := ctx.page - 1
  let page := if page < 0 then f.lastPage else page
  { page := page, selected := 0 }

/-- Model of Commands.page (lines 373-384): jump to 1-based page n,
rejecting out-of-range targets with a message and no state change. -/
def page (f : PageFormatter) (ctx : Context) (n : Int) : Context × Option String :=
  let last_page := f.lastPage + 1
  if n > last_page ∨ n < 1 then
    (ctx, some ("Specify page 1" ++
      if last_page > 1 then " through " ++ toString last_page else ""))
  else
    ({ page := n - 1, selected := 0 }, none)

/-- Model of Commands.sel (lines 386-397): select 1-based entry k of the
current page, rejecting out-of-range indexes with a message and no state
change. -/
def sel (f : PageFormatter) (ctx : Context) (k : Int) : Context × Option String :=
  let page_len := (f.pageOfTaxa ctx.page).length
  if k > (page_len : Int) ∨ k < 1 then
    (ctx, some ("Specify entry 1" ++
      if page_len > 1 then " through " ++ toString page_len else ""))
  else
    ({ page := ctx.page, selected := k - 1 }, none)

end Commands

/-- Concrete taxon used in counterexamples and witnesses: a species whose
direct count 5 differs from its (zero, hence falsy) descendant rollup. -/
def leafA : Taxon :=
  ⟨1, "A", "species", some 100, 5, some 0, 5, 0⟩

/-- Concrete taxon used in counterexamples and witnesses: a genus that is
a true leaf (direct count equals descendant count). -/
def leafB : Taxon :=
  ⟨2, "B", "genus", some 200, 3, some 3, 3, 0⟩

/-- Concrete taxon for the stable-sort counterexample: same name and rank
level as its twin, distinct id. -/
def dupA1 : Taxon :=
  ⟨1, "Alpha", "genus", some 200, 0, none, 0, 0⟩

/-- Twin of dupA1 with a different id. -/
def dupA2 : Taxon :=
  ⟨2, "Alpha", "genus", some 200, 0, none, 0, 0⟩

/-! Helper lemmas. -/

/-- Rounding up by adding one on a nonzero remainder equals ceiling
division. -/
lemma div_succ_of_mod_eq_ceil (n s : Nat) (hs : 0 < s) :
    (if n % s ≠ 0 then n / s + 1 else n / s) = (n + s - 1) / s := by
  have hdm := Nat.div_add_mod n s
  have hm : n % s < s := Nat.mod_lt _ hs
  by_cases h : n % s = 0
  · rw [if_neg (not_not_intro h)]
    have h1 : n + s - 1 = s * (n / s) + (s - 1) := by omega
    have h2 : (s - 1) / s = 0 := Nat.div_eq_of_lt (by omega)
    rw [h1, Nat.mul_add_div hs, h2]
    omega
  · rw [if_pos h]
    have hexp : s * (n / s + 1) = s * (n / s) + s := by ring
    have h1 : n + s - 1 = s * (n / s + 1) + (n % s - 1) := by
      rw [hexp]
      omega
    have h2 : (n % s - 1) / s = 0 := Nat.div_eq_of_lt (by omega)
    rw [h1, Nat.mul_add_div hs, h2]

/-- A Python slice bound that is nonnegative clamps at the length. -/
lemma pySliceBound_nonneg {len : Nat} {i : Int} (hi : 0 ≤ i) :
    pySliceBound len i = min i.toNat len := by
  unfold pySliceBound
  rw [if_neg (by omega)]

/-- A Python slice l[a : a + s] with nonnegative a is the clamped
subsequence of s elements starting at index a. -/
lemma pySlice_nonneg {α : Type} (l : List α) (a : Int) (s : Nat) (ha : 0 ≤ a) :
    pySlice l a (a + (s : Int)) = (l.drop a.toNat).take s := by
  unfold pySlice
  rw [pySliceBound_nonneg ha, pySliceBound_nonneg (by omega : (0 : Int) ≤ a + (s : Int)),
    Int.toNat_add ha (by omega : (0 : Int) ≤ (s : Int))]
  simp only [Int.toNat_natCast]
  by_cases hA : a.toNat ≤ l.length
  · rw [min_eq_left hA]
    by_cases hAs : a.toNat + s ≤ l.length
    · rw [min_eq_left hAs]
      have h1 : a.toNat + s - a.toNat = s := by omega
      rw [h1]
    · rw [min_eq_right (by omega)]
      rw [List.take_of_length_le (by simp [List.length_drop]),
        List.take_of_length_le (by simp [List.length_drop]; omega)]
  · rw [min_eq_right (by omega), min_eq_right (by omega)]
    have h1 : l.drop l.length = [] := List.drop_eq_nil_iff.mpr le_rfl
    have h2 : l.drop a.toNat = [] := List.drop_eq_nil_iff.mpr (by omega)
    rw [h1, h2, List.take_nil, List.take_nil]

/-- The slice taxa[0 : len(taxa) + 1] is the whole list. -/
lemma pySlice_zero_len_succ {α : Type} (l : List α) :
    pySlice l 0 ((l.length : Int) + 1) = l := by
  have h := pySlice_nonneg l 0 (l.length + 1) le_rfl
  rw [show ((0 : Int) + ((l.length + 1 : Nat) : Int)) = (l.length : Int) + 1 by push_cast; ring] at h
  rw [h]
  simp [List.take_of_length_le]

/-- The counting loop with no_indent appends every generated taxon with
its indent level zeroed. -/
lemma counted_foldl_no_indent (gen : List Taxon) :
    ∀ st : CountState, (List.foldl (count_step true) st gen).counted
      = st.counted ++ gen.map (fun t => { t with indent_level := 0 }) := by
  induction gen with
  | nil => intro st; simp
  | cons t gen ih =>
    intro st
    rw [List.foldl_cons, ih]
    simp [count_step, adjustIndent]

/-- Indent adjustment does not change the rank. -/
lemma adjustIndent_rank (no_indent : Bool) (root : Option Int) (t : Taxon) :
    (adjustIndent no_indent root t).rank = t.rank := by
  cases no_indent <;> cases root <;> rfl

/-- Bumping a rank adds one to the tally sum. -/
lemma tot_sum_bump (tot : List (String × Nat)) (r : String) :
    tot_sum (tot_bump tot r) = tot_sum tot + 1 := by
  induction tot with
  | nil => rfl
  | cons kv rest ih =>
    obtain ⟨k, v⟩ := kv
    unfold tot_bump
    by_cases h : k = r
    · rw [if_pos h]
      simp [tot_sum]
      omega
    · rw [if_neg h]
      simp only [tot_sum, List.map_cons, List.sum_cons] at ih ⊢
      omega

/-- Bumping a rank adds one to that rank's tally and leaves the others
unchanged. -/
lemma tot_get_bump (tot : List (String × Nat)) (r q : String) :
    tot_get (tot_bump tot r) q = tot_get tot q + (if q = r then 1 else 0) := by
  induction tot with
  | nil =>
    unfold tot_bump tot_get
    by_cases h : q = r
    · subst h
      simp
    · rw [if_neg (fun hc => h hc.symm), if_neg h]
      simp [tot_get]
  | cons kv rest ih =>
    obtain ⟨k, v⟩ := kv
    unfold tot_bump
    by_cases h : k = r
    · rw [if_pos h]
      unfold tot_get
      by_cases hq : k = q
      · have hqr : q = r := hq ▸ h
        rw [if_pos hq, if_pos hq, if_pos hqr]
      · have hqr : ¬ q = r := fun hc => hq (h.symm ▸ hc.symm ▸ rfl)
        rw [if_neg hq, if_neg hq, if_neg hqr]
        omega
    · rw [if_neg h]
      unfold tot_get
      by_cases hq : k = q
      · have hqr : ¬ q = r := fun hc => h (hq.trans hc)
        rw [if_pos hq, if_pos hq, if_neg hqr]
        omega
      · rw [if_neg hq, if_neg hq]
        exact ih

/-! Claim theorems. -/

/-- C1 counterexample: on 5 entries with page size 2, get_max_pages
returns the number of pages, 3, not the highest zero-based page index
ceil(5/2) - 1 = 2; and on 2 entries with page size 3 (one page, no
pagination) it returns 1 rather than 0. -/
theorem c1_counterexample :
    ListPageSource.get_max_pages [0, 1, 2, 3, 4] 2 = some 3
    ∧ (5 + 2 - 1) / 2 - 1 = 2
    ∧ ListPageSource.get_max_pages [0, 1, 2, 3, 4] 2 ≠ some ((5 + 2 - 1) / 2 - 1)
    ∧ ListPageSource.get_max_pages [0, 1] 3 = some 1 := by
  decide

/-- C1, amended: get_max_pages returns the number of pages
ceil(count / page_size) (0 when the sequence is empty, hence one more
than the highest zero-based page index whenever the sequence is
non-empty), while last_page returns the highest zero-based page index
ceil(count / page_size) - 1, or 0 when the sequence is empty or does not
exceed one page. -/
theorem c1_max_pages_and_last_page {α : Type} (entries : List α) (taxa : List Taxon)
    (s : Nat) (hs : 0 < s) :
    ListPageSource.get_max_pages entries s = some ((entries.length + s - 1) / s)
    ∧ (taxa ≠ [] →
        LifeListFormatter.last_page true (s : Int) taxa
          = (((taxa.length + s - 1) / s : Nat) : Int) - 1)
    ∧ (taxa = [] → LifeListFormatter.last_page true (s : Int) taxa = 0)
    ∧ (taxa ≠ [] → taxa.length ≤ s → LifeListFormatter.last_page true (s : Int) taxa = 0) := by
  have hlp : taxa ≠ [] →
      LifeListFormatter.last_page true (s : Int) taxa
        = (((taxa.length + s - 1) / s : Nat) : Int) - 1 := by
    intro hne
    unfold LifeListFormatter.last_page
    rw [if_pos ⟨rfl, by exact_mod_cast hs, hne⟩]
    have hcast : ((taxa.length + s - 1 : Nat) : Int) = (taxa.length : Int) + (s : Int) - 1 := by
      omega
    rw [← hcast, ← Int.natCast_div]
  refine ⟨?_, hlp, ?_, ?_⟩
  · unfold ListPageSource.get_max_pages
    rw [if_neg (by omega)]
    exact congrArg some (div_succ_of_mod_eq_ceil entries.length s hs)
  · intro he
    unfold LifeListFormatter.last_page
    rw [if_neg (by simp [he])]
  · intro hne hle
    rw [hlp hne]
    have hq : (taxa.length + s - 1) / s = 1 := by
      have hlen : 0 < taxa.length := List.length_pos.mpr hne
      exact Nat.div_eq_of_lt_le (by omega) (by omega)
    rw [hq]
    rfl

/-- C1 witness: 5 entries at page size 2 give 3 pages; a 3-taxon list at
page size 2 has last page index 1. -/
theorem c1_witness :
    ListPageSource.get_max_pages [0, 1, 2, 3, 4] 2 = some 3
    ∧ LifeListFormatter.last_page true 2 [leafA, leafB, dupA1] = 1 := by
  have h := c1_max_pages_and_last_page [0, 1, 2, 3, 4] [leafA, leafB, dupA1] 2 (by norm_num)
  refine ⟨h.1.trans (by norm_num), ?_⟩
  have h2 := h.2.1 (by simp)
  norm_num at h2
  exact h2

/-- C2 counterexample: with page size 2 over the non-empty sequence
[0, 1, 2], get_page returns an empty slice, not an out-of-range failure,
both for the negative page number -1 and for page number 2, whose slice
start 4 lies beyond the end. -/
theorem c2_counterexample :
    ListPageSource.get_page ([0, 1, 2] : List Nat) 2 (-1) = some (PageData.slice [])
    ∧ ListPageSource.get_page ([0, 1, 2] : List Nat) 2 2 = some (PageData.slice [])
    ∧ ([0, 1, 2] : List Nat) ≠ [] := by
  decide

/-- C2, amended: for page sizes of at least 2, get_page never fails: at a
nonnegative page number n it returns the slice [n*s, (n+1)*s) clamped to
the sequence bounds (empty when the start lies beyond the end), and at
any other page number it still returns a slice under Python negative-slice
semantics; get_page_of_taxa likewise returns the clamped slice and never
fails; only the per_page == 1 branch fails, with an IndexError, for page
numbers at or beyond the sequence length. -/
theorem c2_get_page_clamps {α : Type} (entries : List α) (taxa : List Taxon)
    (s : Nat) (n : Int) (hs : 2 ≤ s) (hn : 0 ≤ n) :
    ListPageSource.get_page entries s n
      = some (PageData.slice ((entries.drop (n * (s : Int)).toNat).take s))
    ∧ (∀ m : Int, (ListPageSource.get_page entries s m).isSome = true)
    ∧ LifeListFormatter.get_page_of_taxa (s : Int) taxa n
      = (taxa.drop (n * (s : Int)).toNat).take s
    ∧ (∀ m : Int, (entries.length : Int) ≤ m → ListPageSource.get_page entries 1 m = none) := by
  have hbase : (0 : Int) ≤ n * (s : Int) := by positivity
  refine ⟨?_, ?_, ?_, ?_⟩
  · unfold ListPageSource.get_page
    rw [if_neg (by omega)]
    dsimp only
    rw [pySlice_nonneg entries (n * (s : Int)) s hbase]
  · intro m
    unfold ListPageSource.get_page
    rw [if_neg (by omega)]
    rfl
  · unfold LifeListFormatter.get_page_of_taxa
    rw [if_pos (by exact_mod_cast (by omega : 0 < s))]
    dsimp only
    rw [pySlice_nonneg taxa (n * (s : Int)) s hbase]
  · intro m hm
    unfold ListPageSource.get_page pyIndex
    rw [if_pos rfl]
    have hm0 : ¬ m < 0 := by
      have : (0 : Int) ≤ (entries.length : Int) := by positivity
      omega
    simp only [hm0, if_neg, ite_false, if_pos (by omega : (0 : Int) ≤ m)]
    rw [List.get?_eq_none.mpr (by omega : entries.length ≤ m.toNat)]
    rfl

/-- C2 witness: page 1 of [10, 20, 30, 40, 50] at page size 2 is the
clamped slice [30, 40]. -/
theorem c2_witness :
    ListPageSource.get_page ([10, 20, 30, 40, 50] : List Nat) 2 1
      = some (PageData.slice [30, 40]) :=
  (c2_get_page_clamps ([10, 20, 30, 40, 50] : List Nat) [] 2 1 (by norm_num)
    (by norm_num)).1.trans (by decide)

/-- C3 counterexample: in filter_taxon_list (menus/taxon_list.py), the
leaf filter keeps leafA although its direct count 5 differs from its
descendant count 0 (a falsy rollup skips the leaf test), and the result
[leafB, leafA] is ordered genus before species by rank level, not by
name, so it differs from the list [leafB] the claim prescribes. -/
theorem c3_counterexample :
    filter_taxon_list_leaf "asc" [leafA, leafB] = [leafB, leafA]
    ∧ leafA.count = 5
    ∧ leafA.descendant_obs_count = some 0
    ∧ (filter_taxon_list_leaf "asc" [leafA, leafB]).map Taxon.name = ["B", "A"]
    ∧ filter_taxon_list_leaf "asc" [leafA, leafB] ≠ [leafB] := by
  decide

/-- C3, amended: filter_life_list (formatters/generic.py) behaves as the
claim states: it keeps exactly the taxa whose direct count equals their
descendant count and sorts the result purely by name ascending. In
filter_taxon_list (menus/taxon_list.py) taxa whose descendant count is
absent or zero are kept regardless of their direct count, and the
re-sort is by rank level (coarser first) with name in the requested
order as tie-break, not by name alone. Both operate on the flattened
depth-first traversal the upstream tree supplies. -/
theorem c3_leaf_filter_and_sort (flattened : List Taxon) (order : String) :
    (filter_life_list_leaf flattened).Perm (flattened.filter old_leaf_included)
    ∧ List.Pairwise name_asc_le (filter_life_list_leaf flattened)
    ∧ (filter_taxon_list_leaf order flattened).Perm
        ((flattened.filter leaf_included).map (fun t => { t with indent_level := 0 }))
    ∧ List.Pairwise (rank_name_le order) (filter_taxon_list_leaf order flattened) := by
  refine ⟨?_, ?_, ?_, ?_⟩
  · exact List.perm_insertionSort name_asc_le (old_taxa_per_rank_leaf flattened)
  · exact List.sorted_insertionSort name_asc_le (old_taxa_per_rank_leaf flattened)
  · have hc : (count_taxa true (taxa_per_rank_leaf flattened)).counted
        = (flattened.filter leaf_included).map (fun t => { t with indent_level := 0 }) := by
      unfold count_taxa
      rw [counted_foldl_no_indent]
      rfl
    unfold filter_taxon_list_leaf sort_rank_name
    rw [hc]
    exact List.perm_insertionSort (rank_name_le order) _
  · exact List.sorted_insertionSort (rank_name_le order) _

/-- C4 counterexample: with reference rank "complex" (level 110, not a
main rank), the main rank "genus" (level 200, no finer than "complex")
is not selected, while "species" (level 100, strictly finer) is: the
selection keeps the main ranks finer than the reference rank, not the
ones no finer. -/
theorem c4_counterexample :
    "genus" ∈ COMMON_RANKS
    ∧ rankLevelOf "complex" ≤ rankLevelOf "genus"
    ∧ "genus" ∉ main_any_ranks_to_count "main" (some "complex")
    ∧ "species" ∈ main_any_ranks_to_count "main" (some "complex")
    ∧ rankLevelOf "species" < rankLevelOf "complex" := by
  decide

/-- C4, amended: for a reference taxon whose rank is not a main rank, the
ranks selected for the "main" policy are exactly the main ranks strictly
finer than (of strictly lower rank level than) the reference rank,
plus the reference taxon's exact rank. -/
theorem c4_main_rank_selection (r m : String) (hr : r ∉ COMMON_RANKS) :
    m ∈ main_any_ranks_to_count "main" (some r)
      ↔ (m ∈ COMMON_RANKS ∧ rankLevelOf m < rankLevelOf r) ∨ m = r := by
  have hincl : included_ranks "main" = COMMON_RANKS := by
    unfold included_ranks
    rw [if_pos rfl]
  unfold main_any_ranks_to_count
  rw [hincl]
  dsimp only
  rw [if_pos ⟨rfl, hr⟩]
  simp [List.mem_append, List.mem_filter]

/-- C4 witness: instantiated at reference rank "complex" and candidate
rank "genus". -/
theorem c4_witness :
    "genus" ∈ main_any_ranks_to_count "main" (some "complex")
      ↔ ("genus" ∈ COMMON_RANKS ∧ rankLevelOf "genus" < rankLevelOf "complex")
        ∨ "genus" = "complex" :=
  c4_main_rank_selection "complex" "genus" (by decide)

/-- C5: next on the last page wraps the current page to 0, prev on page 0
wraps to the formatter's last page, and both reset the selected entry to
0 on every invocation. -/
theorem c5_next_prev_wrap (f : PageFormatter) (ctx : Context) :
    (ctx.page = f.lastPage → (Commands.next f ctx).page = 0)
    ∧ (ctx.page = 0 → (Commands.prev f ctx).page = f.lastPage)
    ∧ (Commands.next f ctx).selected = 0
    ∧ (Commands.prev f ctx).selected = 0 := by
  refine ⟨?_, ?_, rfl, rfl⟩
  · intro h
    unfold Commands.next
    dsimp only
    rw [h, if_pos (by omega)]
  · intro h
    unfold Commands.prev
    dsimp only
    rw [h, if_pos (by omega)]

/-- C6: a page jump outside [1, last_page() + 1] and a selection outside
[1, length of the current page] each return a user-facing message and
leave the context unchanged; the commands are total, so no exception
escapes. -/
theorem c6_nav_error_atomic (f : PageFormatter) (ctx : Context) (n k : Int) :
    ((n < 1 ∨ f.lastPage + 1 < n) →
      (Commands.page f ctx n).1 = ctx ∧ ((Commands.page f ctx n).2).isSome = true)
    ∧ ((k < 1 ∨ ((f.pageOfTaxa ctx.page).length : Int) < k) →
      (Commands.sel f ctx k).1 = ctx ∧ ((Commands.sel f ctx k).2).isSome = true) := by
  constructor
  · intro h
    unfold Commands.page
    dsimp only
    rw [if_pos (by omega)]
    exact ⟨rfl, rfl⟩
  · intro h
    unfold Commands.sel
    dsimp only
    rw [if_pos (by omega)]
    exact ⟨rfl, rfl⟩

/-- C7: on taxa of equal rank level, the "desc" name sort orders any two
taxa by the reversed string comparison of their names; it is not the
row-reversal of the ascending sort (two taxa sharing a name stay in
input order under both, witnessed by dupA1/dupA2); and the rank level,
coarser first, stays the dominant key for every requested order. -/
theorem c7_desc_name_sort (ts : List Taxon) (L : Nat) :
    ((∀ t ∈ ts, t.rank_level = some L) →
      List.Pairwise (fun a b : Taxon => b.name ≤ a.name) (sort_rank_name "desc" ts))
    ∧ sort_rank_name "desc" [dupA1, dupA2] ≠ (sort_rank_name "asc" [dupA1, dupA2]).reverse
    ∧ (∀ order : String,
        List.Pairwise (fun a b : Taxon => levOf b ≤ levOf a) (sort_rank_name order ts)) := by
  have hstable : ∀ order : String, nameLe order dupA1 dupA2 →
      sort_rank_name order [dupA1, dupA2] = [dupA1, dupA2] := by
    intro order hn
    have hrel : rank_name_le order dupA1 dupA2 := Or.inr ⟨rfl, hn⟩
    unfold sort_rank_name
    rw [show List.insertionSort (rank_name_le order) [dupA1, dupA2]
        = List.orderedInsert (rank_name_le order) dupA1 [dupA2] from rfl]
    unfold List.orderedInsert
    rw [if_pos hrel]
  have hdesc : sort_rank_name "desc" [dupA1, dupA2] = [dupA1, dupA2] := by
    refine hstable "desc" ?_
    unfold nameLe
    rw [if_pos rfl]
    exact le_rfl
  have hasc : sort_rank_name "asc" [dupA1, dupA2] = [dupA1, dupA2] := by
    refine hstable "asc" ?_
    unfold nameLe
    rw [if_neg (by decide)]
    exact le_rfl
  refine ⟨?_, by rw [hdesc, hasc]; decide, ?_⟩
  · intro hL
    have hmem : ∀ t ∈ sort_rank_name "desc" ts, t.rank_level = some L := by
      intro t ht
      exact hL t ((List.perm_insertionSort (rank_name_le "desc") ts).subset ht)
    have hs := List.sorted_insertionSort (rank_name_le "desc") ts
    refine hs.imp_of_mem ?_
    intro a b ha hb hab
    rcases hab with hlt | ⟨_, hn⟩
    · exfalso
      unfold levKey levOf at hlt
      rw [hmem a ha, hmem b hb] at hlt
      exact absurd hlt (lt_irrefl _)
    · unfold nameLe at hn
      rwa [if_pos rfl] at hn
  · intro order
    have hs := List.sorted_insertionSort (rank_name_le order) ts
    refine hs.imp ?_
    intro a b hab
    rcases hab with hlt | ⟨heq, _⟩
    · unfold levKey at hlt
      omega
    · unfold levKey at heq
      omega

/-- C8 counterexample: a TaxonListSource over an empty list with page
size 20 reports that it is paginating even though 0 entries do not
exceed the page size, diverging from the inherited length test. -/
theorem c8_counterexample :
    TaxonListSource.is_paginating [] 20 = true
    ∧ ListPageSource.is_paginating ([] : List Taxon) 20 = false := by
  decide

/-- C8, amended: ListPageSource.is_paginating is true exactly when the
entry count exceeds the page size, but TaxonListSource overrides it to
return True unconditionally. -/
theorem c8_is_paginating {α : Type} (entries : List α) (s : Nat)
    (taxa : List Taxon) (p : Nat) :
    (ListPageSource.is_paginating entries s = true ↔ s < entries.length)
    ∧ TaxonListSource.is_paginating taxa p = true := by
  constructor
  · unfold ListPageSource.is_paginating
    simp
  · rfl

/-- C9: over any generated taxon sequence and either indenting mode, the
per-rank tallies of the counting loop sum exactly to the number of
counted taxa, which is the number of generated taxa; and the tally of a
rank is exactly the number of taxa of that rank, so each included node
contributes exactly 1 to its own rank and nothing else, independent of
its observation counts. -/
theorem c9_rank_totals (gen : List Taxon) (no_indent : Bool) (r : String) :
    tot_sum (count_taxa no_indent gen).tot = (count_taxa no_indent gen).counted.length
    ∧ (count_taxa no_indent gen).counted.length = gen.length
    ∧ tot_get (count_taxa no_indent gen).tot r
        = gen.countP (fun t => t.rank == r) := by
  have key : ∀ st : CountState,
      tot_sum (List.foldl (count_step no_indent) st gen).tot
          = tot_sum st.tot + gen.length
      ∧ (List.foldl (count_step no_indent) st gen).counted.length
          = st.counted.length + gen.length
      ∧ tot_get (List.foldl (count_step no_indent) st gen).tot r
          = tot_get st.tot r + gen.countP (fun t => t.rank == r) := by
    induction gen with
    | nil =>
      intro st
      simp
    | cons t gen ih =>
      intro st
      rw [List.foldl_cons]
      obtain ⟨ih1, ih2, ih3⟩ := ih (count_step no_indent st t)
      have hstep_tot : (count_step no_indent st t).tot
          = tot_bump st.tot t.rank := by
        unfold count_step
        dsimp only
        rw [adjustIndent_rank]
      have hstep_counted : (count_step no_indent st t).counted.length
          = st.counted.length + 1 := by
        unfold count_step
        dsimp only
        simp
      refine ⟨?_, ?_, ?_⟩
      · rw [ih1, hstep_tot, tot_sum_bump]
        simp
        omega
      · rw [ih2, hstep_counted]
        simp
        omega
      · rw [ih3, hstep_tot, tot_get_bump, List.countP_cons]
        by_cases h : t.rank = r
        · simp only [h, if_pos rfl, beq_self_eq_true, if_true]
          omega
        · have hr1 : ¬ r = t.rank := fun hc => h hc.symm
          simp only [if_neg hr1, beq_iff_eq, if_neg h]
          omega
  obtain ⟨k1, k2, k3⟩ := key initCountState
  unfold count_taxa
  rw [k1, k2, k3]
  unfold initCountState tot_sum tot_get
  simp

/-- C10: a negative per_page is clamped to 0 at construction; with
per_page 0, get_page_of_taxa returns the entire filtered list for every
page number, and last_page returns 0, so the whole result is one single
page and nothing fails. -/
theorem c10_per_page_zero (pp : Int) (taxa : List Taxon) (p : Int) (wt : Bool)
    (hneg : pp < 0) (_hp : 0 ≤ p) :
    LifeListFormatter.init_per_page pp = 0
    ∧ LifeListFormatter.get_page_of_taxa 0 taxa p = taxa
    ∧ LifeListFormatter.last_page wt 0 taxa = 0 := by
  refine ⟨?_, ?_, ?_⟩
  · unfold LifeListFormatter.init_per_page
    rw [if_neg (by omega)]
  · unfold LifeListFormatter.get_page_of_taxa
    rw [if_neg (by omega)]
    exact pySlice_zero_len_succ taxa
  · unfold LifeListFormatter.last_page
    rw [if_neg (by simp)]

/-- C10 witness: per_page -5 is clamped to 0; with per_page 0 page 3 of a
one-taxon list is the whole list and the last page is 0. -/
theorem c10_witness :
    LifeListFormatter.init_per_page (-5) = 0
    ∧ LifeListFormatter.get_page_of_taxa 0 [leafA] 3 = [leafA]
    ∧ LifeListFormatter.last_page true 0 [leafA] = 0 :=
  c10_per_page_zero (-5) [leafA] 3 true (by norm_num) (by norm_num)


end Dronefly
